import Mathlib

/-!
Shallow embedding of `src/rating.js` (slack-app-rating).

The embedding covers the in-memory `RatingStore` class (`createRating`,
`getRating`, `updateRating`, `checkRateLimit`, `addRateLimitEntry`) and the
pure decision logic of the two handlers (`/rate` command and the
`submit_rating` action).  JavaScript `Map`s are modelled as insertion-ordered
association lists; `Date.now()` is an explicit `now : Nat` parameter;
`Date.now().toString()` is an explicit decimal rendering `natToString`.
-/

/-- JS `Map.prototype.get` over an insertion-ordered association list. -/
def mapGet {α : Type} (m : List (String × α)) (k : String) : Option α :=
  match m with
  | [] => none
  | (k1, v1) :: rest => if k1 = k then some v1 else mapGet rest k

/-- JS `Map.prototype.set`: replaces the value in place when the key exists,
otherwise appends a new entry at the end. -/
def mapSet {α : Type} (m : List (String × α)) (k : String) (v : α) :
    List (String × α) :=
  match m with
  | [] => [(k, v)]
  | (k1, v1) :: rest => if k1 = k then (k, v) :: rest else (k1, v1) :: mapSet rest k v

/-- The decimal digit character for `d` (`'0' + d`). -/
def digitChar (d : Nat) : Char := Char.ofNat (48 + d)

/-- Decimal digit expansion, most significant digit first, by structural
recursion on a fuel argument (the recursion divides `n` by 10, so any
`fuel > n` is enough fuel and the fuel never runs out). -/
def natDigitsAux : Nat → Nat → List Char
  | 0, _ => []
  | fuel + 1, n =>
    if n < 10 then [digitChar n]
    else natDigitsAux fuel (n / 10) ++ [digitChar (n % 10)]

/-- The decimal digit list of `n`, most significant digit first: the
embedding of JS `Number.prototype.toString()` on the nonnegative integers
produced by `Date.now()`. -/
def natDigits (n : Nat) : List Char := natDigitsAux (n + 1) n

/-- JS `Date.now().toString()`: the decimal string for a timestamp. -/
def natToString (n : Nat) : String := String.mk (natDigits n)

/-- The record built by `RatingStore.createRating` / `updateRating` in
`src/rating.js`.  `reviewerId` and `rating` are absent (`none`) until a
submission sets them; `status` is the literal string field of the source
(`"pending"` or `"completed"`). -/
structure RatingRequest where
  id : String
  requesterId : String
  channelId : String
  reviewerId : Option String
  rating : Option Int
  status : String
  createdAt : Nat
deriving Repr, DecidableEq

/-- The two JS `Map`s held by the `RatingStore` class. -/
structure RatingStore where
  ratings : List (String × RatingRequest)
  rateLimit : List (String × List Nat)
deriving Repr, DecidableEq

/-- `RatingStore.createRating(requesterId, channelId)`; the implicit
`Date.now()` call is the explicit parameter `now`. -/
def createRating (s : RatingStore) (now : Nat) (requesterId channelId : String) :
    RatingStore × RatingRequest :=
  let id := natToString now
  let rating : RatingRequest :=
    { id := id, requesterId := requesterId, channelId := channelId,
      reviewerId := none, rating := none, status := "pending", createdAt := now }
  ({ s with ratings := mapSet s.ratings id rating }, rating)

/-- `RatingStore.getRating(id)`. -/
def getRating (s : RatingStore) (id : String) : Option RatingRequest :=
  mapGet s.ratings id

/-- `RatingStore.updateRating(id, reviewerId, rating)`: returns `null`
(`none`) when the id is unknown, otherwise spreads the existing record and
overwrites `reviewerId`, `rating` and `status`. -/
def updateRating (s : RatingStore) (id reviewerId : String) (rating : Int) :
    RatingStore × Option RatingRequest :=
  match mapGet s.ratings id with
  | none => (s, none)
  | some existing =>
    let updated : RatingRequest :=
      { existing with reviewerId := some reviewerId, rating := some rating,
                      status := "completed" }
    ({ s with ratings := mapSet s.ratings id updated }, some updated)

/-- `15 * 60 * 1000` milliseconds, the window of `checkRateLimit`. -/
def windowMs : Nat := 15 * 60 * 1000

/-- `RatingStore.checkRateLimit(userId)`: prunes that user's timestamps to
those with `now - time < windowMs`, stores the pruned list back, and reports
whether at least 5 remain. -/
def checkRateLimit (s : RatingStore) (userId : String) (now : Nat) :
    RatingStore × Bool :=
  let userRequests := (mapGet s.rateLimit userId).getD []
  let recentRequests := userRequests.filter (fun time => now - time < windowMs)
  ({ s with rateLimit := mapSet s.rateLimit userId recentRequests },
   decide (5 ≤ recentRequests.length))

/-- `RatingStore.addRateLimitEntry(userId)`: appends `Date.now()` (the
explicit `now`) to that user's timestamp list, unconditionally. -/
def addRateLimitEntry (s : RatingStore) (userId : String) (now : Nat) :
    RatingStore :=
  let userRequests := (mapGet s.rateLimit userId).getD []
  { s with rateLimit := mapSet s.rateLimit userId (userRequests ++ [now]) }

/-- The errors thrown by the `submit_rating` action handler before it reaches
`updateRating`: `"Rating request not found"` and `"You cannot rate yourself"`. -/
inductive SubmitError where
  | notFound
  | selfRating
deriving Repr, DecidableEq

/-- The pure decision logic of the `app.action('submit_rating')` handler:
look the rating up, reject an unknown id, reject a reviewer equal to the
requester, otherwise call `updateRating`.  The handler performs no status
check and no score-range check. -/
def submitRating (s : RatingStore) (ratingId reviewerId : String) (score : Int) :
    RatingStore × Except SubmitError Unit :=
  match getRating s ratingId with
  | none => (s, Except.error SubmitError.notFound)
  | some rating =>
    if rating.requesterId = reviewerId then (s, Except.error SubmitError.selfRating)
    else ((updateRating s ratingId reviewerId score).1, Except.ok ())

/-- The error thrown by the `/rate` handler when `checkRateLimit` reports
`true`. -/
inductive RateError where
  | rateLimitExceeded
deriving Repr, DecidableEq

/-- The pure decision logic of the `app.command('/rate')` handler: check the
rate limit (whose pruning side effect persists even on rejection), record an
admission timestamp, create the rating. -/
def rateCommand (s : RatingStore) (userId channelId : String) (now : Nat) :
    RatingStore × Except RateError RatingRequest :=
  let res := checkRateLimit s userId now
  if res.2 then (res.1, Except.error RateError.rateLimitExceeded)
  else
    let s2 := addRateLimitEntry res.1 userId now
    let res3 := createRating s2 now userId channelId
    (res3.1, Except.ok res3.2)

/-- The `block_id` attached to the interactive message by the `/rate`
handler: the template string `rating_${rating.id}`. -/
def blockId (r : RatingRequest) : String := "rating_" ++ r.id

/-- JS `String.prototype.split` with a single-character separator, over the
character list. -/
def splitOnChar (sep : Char) : List Char → List (List Char)
  | [] => [[]]
  | c :: rest =>
    let r := splitOnChar sep rest
    if c = sep then [] :: r
    else
      match r with
      | [] => [[c]]
      | h :: t => (c :: h) :: t

/-- JS `s.split(sep)` on strings. -/
def jsSplit (s : String) (sep : Char) : List String :=
  (splitOnChar sep s.data).map String.mk

/-! ### Association-list map lemmas -/

theorem mapGet_mapSet_self {α : Type} (m : List (String × α)) (k : String) (v : α) :
    mapGet (mapSet m k v) k = some v := by
  induction m with
  | nil => simp [mapGet, mapSet]
  | cons hd tl ih =>
    obtain ⟨k1, v1⟩ := hd
    by_cases h : k1 = k
    · simp [mapGet, mapSet, h]
    · simp [mapGet, mapSet, h, ih]

theorem mapGet_mapSet_ne {α : Type} (m : List (String × α)) (k k2 : String) (v : α)
    (h : k2 ≠ k) : mapGet (mapSet m k v) k2 = mapGet m k2 := by
  induction m with
  | nil => simp [mapGet, mapSet, h, Ne.symm h]
  | cons hd tl ih =>
    obtain ⟨k1, v1⟩ := hd
    by_cases h1 : k1 = k
    · subst h1
      simp [mapGet, mapSet, Ne.symm h]
    · by_cases h2 : k1 = k2 <;> simp [mapGet, mapSet, h, h1, h2, ih]

theorem length_mapSet_of_get_none {α : Type} (m : List (String × α)) (k : String)
    (v : α) (h : mapGet m k = none) : (mapSet m k v).length = m.length + 1 := by
  induction m with
  | nil => simp [mapSet]
  | cons hd tl ih =>
    obtain ⟨k1, v1⟩ := hd
    by_cases h1 : k1 = k
    · simp [mapGet, h1] at h
    · simp only [mapGet, h1, if_false, ite_false] at h
      simp [mapSet, h1, ih h]

/-! ### Sample stores used to instantiate the theorems -/

/-- The empty store, as built by `new RatingStore()`. -/
def emptyStore : RatingStore := { ratings := [], rateLimit := [] }

/-- A sample pending request, as `createRating` stores it at time 100 for
requester `"U1"` in channel `"C1"`. -/
def pendingReq : RatingRequest :=
  { id := "100", requesterId := "U1", channelId := "C1",
    reviewerId := none, rating := none, status := "pending", createdAt := 100 }

/-- A store holding the single pending request `pendingReq`. -/
def pendingStore : RatingStore :=
  { ratings := [("100", pendingReq)], rateLimit := [] }

/-! ### C4: self-rating is rejected and changes nothing -/

/-- C4: for every stored Pending request, a submit whose reviewer equals the
request's requester fails with `SelfRatingNotAllowed` (the handler's
`'You cannot rate yourself'` branch) and returns the store unchanged, so no
field of any request is modified and the status stays Pending. -/
theorem c4_self_rating_rejected (s : RatingStore) (id : String) (req : RatingRequest)
    (score : Int) (hget : getRating s id = some req) (_hp : req.status = "pending") :
    submitRating s id req.requesterId score = (s, Except.error SubmitError.selfRating) := by
  simp [submitRating, hget]

/-- Witness for C4 at the concrete pending store. -/
theorem c4_witness :
    submitRating pendingStore "100" "U1" 3 =
      (pendingStore, Except.error SubmitError.selfRating) :=
  c4_self_rating_rejected pendingStore "100" pendingReq 3 (by decide) (by decide)

/-! ### C5: unknown id fails with NotFound and mutates nothing -/

/-- C5: for every id absent from the registry, the submit handler fails with
`NotFound` (`'Rating request not found'`) leaving the store untouched, and
`updateRating` itself returns `null` with the store untouched. -/
theorem c5_not_found (s : RatingStore) (id reviewerId : String) (score : Int)
    (hget : getRating s id = none) :
    submitRating s id reviewerId score = (s, Except.error SubmitError.notFound) ∧
    updateRating s id reviewerId score = (s, none) := by
  refine ⟨by simp [submitRating, hget], ?_⟩
  unfold getRating at hget
  simp [updateRating, hget]

/-- Witness for C5 at an id never created. -/
theorem c5_witness :
    submitRating pendingStore "999" "U2" 3 =
      (pendingStore, Except.error SubmitError.notFound) ∧
    updateRating pendingStore "999" "U2" 3 = (pendingStore, none) :=
  c5_not_found pendingStore "999" "U2" 3 (by decide)

/-! ### C9: record appends unconditionally -/

/-- C9: `addRateLimitEntry` appends the current time to the requester's
timestamp sequence unconditionally — for every prior state, including one
already at or over the 5-entry threshold, the new sequence is the old one
with `now` appended, and the ratings map is untouched. -/
theorem c9_record_appends (s : RatingStore) (userId : String) (now : Nat) :
    mapGet (addRateLimitEntry s userId now).rateLimit userId =
      some ((mapGet s.rateLimit userId).getD [] ++ [now]) ∧
    (addRateLimitEntry s userId now).ratings = s.ratings := by
  constructor
  · simp [addRateLimitEntry, mapGet_mapSet_self]
  · rfl

/-! ### C8: the submit path neither reads nor writes the rate-limit state -/

/-- C8: the submit handler never consults the rate-limit map — its verdict
and its effect on the ratings map are the same for every rate-limit state,
and the rate-limit map passes through unchanged. -/
theorem c8_submit_ignores_rate_limit (s : RatingStore)
    (rl : List (String × List Nat)) (id reviewerId : String) (score : Int) :
    (submitRating s id reviewerId score).1.rateLimit = s.rateLimit ∧
    (submitRating { ratings := s.ratings, rateLimit := rl } id reviewerId score).2 =
      (submitRating s id reviewerId score).2 ∧
    (submitRating { ratings := s.ratings, rateLimit := rl } id reviewerId score).1.ratings =
      (submitRating s id reviewerId score).1.ratings := by
  cases hm : mapGet s.ratings id with
  | none => simp [submitRating, getRating, hm]
  | some req =>
    by_cases hr : req.requesterId = reviewerId <;>
      simp [submitRating, getRating, updateRating, hm, hr]

/-! ### C1: the code does not enforce single completion -/

/-- The request as the first successful completion (`"U2"`, score 5) leaves it. -/
def completedReq : RatingRequest :=
  { pendingReq with reviewerId := some "U2", rating := some 5,
                    status := "completed" }

/-- A store holding the single completed request `completedReq`. -/
def completedStore : RatingStore :=
  { ratings := [("100", completedReq)], rateLimit := [] }

/-- C1 counterexample: create a request at time 100, complete it with
reviewer `"U2"` and score 5, then complete it again with reviewer `"U3"` and
score 1.  The second call does not fail with any `InvalidState` error — it
returns an updated record — and the stored reviewer and score are now those
of the second call, not of the first. -/
theorem c1_counterexample :
    ((updateRating (updateRating (createRating emptyStore 100 "U1" "C1").1
        "100" "U2" 5).1 "100" "U3" 1).2.isSome = true) ∧
    ((getRating (updateRating (updateRating (createRating emptyStore 100 "U1" "C1").1
        "100" "U2" 5).1 "100" "U3" 1).1 "100").map
      (fun r => (r.reviewerId, r.rating)) = some (some "U3", some (1 : Int))) := by
  decide

/-- C1 (amended): `updateRating` succeeds on every stored request regardless
of its status — there is no `InvalidState` rejection — so a second complete
call on an already-completed id succeeds again and overwrites the stored
`reviewerId` and `score` with the second call's arguments. -/
theorem c1_second_complete_overwrites (s : RatingStore) (id reviewer2 : String)
    (score2 : Int) (req : RatingRequest) (hget : getRating s id = some req) :
    (updateRating s id reviewer2 score2).2 =
      some { req with reviewerId := some reviewer2, rating := some score2,
                      status := "completed" } ∧
    getRating (updateRating s id reviewer2 score2).1 id =
      some { req with reviewerId := some reviewer2, rating := some score2,
                      status := "completed" } := by
  unfold getRating at hget ⊢
  simp [updateRating, hget, mapGet_mapSet_self]

/-- Witness for the amended C1: the second completion (`"U3"`, score 1) on
the already-completed request succeeds and overwrites. -/
theorem c1_witness :
    (updateRating completedStore "100" "U3" 1).2 =
      some { completedReq with reviewerId := some "U3", rating := some 1,
                               status := "completed" } ∧
    getRating (updateRating completedStore "100" "U3" 1).1 "100" =
      some { completedReq with reviewerId := some "U3", rating := some 1,
                               status := "completed" } :=
  c1_second_complete_overwrites completedStore "100" "U3" 1 completedReq (by decide)

/-! ### C3: the code does not validate the score range -/

/-- C3 counterexample: completing the pending request with score 0 — outside
1..5 — does not fail with any `InvalidScore` error: `updateRating` succeeds,
stores score 0, and the status becomes `"completed"`, not `"pending"`. -/
theorem c3_counterexample :
    ((updateRating pendingStore "100" "U2" 0).2.map
      (fun r => (r.status, r.rating)) = some ("completed", some (0 : Int))) ∧
    ((getRating (updateRating pendingStore "100" "U2" 0).1 "100").map
      (fun r => r.status) = some "completed") := by
  decide

/-- C3 (amended): neither `updateRating` nor the submit handler checks the
score range — for every stored Pending request and every score, including
scores outside 1..5, the complete call succeeds, stores that score, and sets
the status to `"completed"` (out-of-range scores are kept out only by the
UI, whose radio options are the strings `"1"`..`"5"`). -/
theorem c3_out_of_range_score_accepted (s : RatingStore) (id reviewerId : String)
    (score : Int) (req : RatingRequest) (hget : getRating s id = some req)
    (_hp : req.status = "pending") (_hout : score < 1 ∨ 5 < score) :
    (updateRating s id reviewerId score).2 =
      some { req with reviewerId := some reviewerId, rating := some score,
                      status := "completed" } ∧
    getRating (updateRating s id reviewerId score).1 id =
      some { req with reviewerId := some reviewerId, rating := some score,
                      status := "completed" } := by
  unfold getRating at hget ⊢
  simp [updateRating, hget, mapGet_mapSet_self]

/-- Witness for the amended C3 at score 0. -/
theorem c3_witness :
    (updateRating pendingStore "100" "U2" 0).2 =
      some { pendingReq with reviewerId := some "U2", rating := some 0,
                             status := "completed" } ∧
    getRating (updateRating pendingStore "100" "U2" 0).1 "100" =
      some { pendingReq with reviewerId := some "U2", rating := some 0,
                             status := "completed" } :=
  c3_out_of_range_score_accepted pendingStore "100" "U2" 0 pendingReq
    (by decide) (by decide) (by decide)

/-! ### C7: a successful complete changes exactly the submission fields -/

/-- C7: on a successful complete, the returned and stored record is the old
record with exactly `reviewerId`, `rating` and `status` replaced
(`status = "completed"`); `id`, `requesterId`, `channelId` and `createdAt`
keep their creation-time values, every other stored request is unchanged,
and the rate-limit map is unchanged. -/
theorem c7_complete_frame (s : RatingStore) (id reviewerId : String) (score : Int)
    (req : RatingRequest) (hget : getRating s id = some req) :
    (updateRating s id reviewerId score).2 =
      some { req with reviewerId := some reviewerId, rating := some score,
                      status := "completed" } ∧
    getRating (updateRating s id reviewerId score).1 id =
      some { req with reviewerId := some reviewerId, rating := some score,
                      status := "completed" } ∧
    ({ req with reviewerId := some reviewerId, rating := some score,
                status := "completed" } : RatingRequest).id = req.id ∧
    ({ req with reviewerId := some reviewerId, rating := some score,
                status := "completed" } : RatingRequest).requesterId = req.requesterId ∧
    ({ req with reviewerId := some reviewerId, rating := some score,
                status := "completed" } : RatingRequest).channelId = req.channelId ∧
    ({ req with reviewerId := some reviewerId, rating := some score,
                status := "completed" } : RatingRequest).createdAt = req.createdAt ∧
    (∀ id2, id2 ≠ id →
      getRating (updateRating s id reviewerId score).1 id2 = getRating s id2) ∧
    (updateRating s id reviewerId score).1.rateLimit = s.rateLimit := by
  unfold getRating at hget ⊢
  refine ⟨?_, ?_, rfl, rfl, rfl, rfl, ?_, ?_⟩
  · simp [updateRating, hget]
  · simp [updateRating, hget, mapGet_mapSet_self]
  · intro id2 hne
    simp only [updateRating, hget]
    exact mapGet_mapSet_ne _ _ _ _ hne
  · simp [updateRating, hget]

/-- Witness for C7: completing the pending request with (`"U2"`, 4) yields
the expected record and leaves an unrelated id's lookup unchanged. -/
theorem c7_witness :
    (updateRating pendingStore "100" "U2" 4).2 =
      some { pendingReq with reviewerId := some "U2", rating := some 4,
                             status := "completed" } ∧
    getRating (updateRating pendingStore "100" "U2" 4).1 "999" =
      getRating pendingStore "999" := by
  have h := c7_complete_frame pendingStore "100" "U2" 4 pendingReq (by decide)
  exact ⟨h.1, h.2.2.2.2.2.2.1 "999" (by decide)⟩

/-! ### Decimal rendering lemmas -/

theorem digitChar_inj {a b : Nat} (ha : a < 10) (hb : b < 10)
    (h : digitChar a = digitChar b) : a = b := by
  interval_cases a <;> interval_cases b <;> revert h <;> decide

theorem natDigitsAux_ne_nil (fuel n : Nat) (h : n < fuel) :
    natDigitsAux fuel n ≠ [] := by
  cases fuel with
  | zero => omega
  | succ f =>
    by_cases h10 : n < 10 <;> simp [natDigitsAux, h10]

theorem natDigitsAux_inj (fuel1 : Nat) :
    ∀ fuel2 m n, m < fuel1 → n < fuel2 →
      natDigitsAux fuel1 m = natDigitsAux fuel2 n → m = n := by
  induction fuel1 with
  | zero => intro fuel2 m n hm; omega
  | succ f1 ih =>
    intro fuel2 m n hm hn heq
    cases fuel2 with
    | zero => omega
    | succ f2 =>
      by_cases hm10 : m < 10 <;> by_cases hn10 : n < 10
      · simp only [natDigitsAux, if_pos hm10, if_pos hn10, List.cons.injEq] at heq
        exact digitChar_inj hm10 hn10 heq.1
      · exfalso
        simp only [natDigitsAux, if_pos hm10, if_neg hn10] at heq
        have hlen := congrArg List.length heq
        simp only [List.length_append, List.length_singleton] at hlen
        have hnil : natDigitsAux f2 (n / 10) = [] := List.length_eq_zero.mp (by omega)
        exact natDigitsAux_ne_nil f2 (n / 10) (by omega) hnil
      · exfalso
        simp only [natDigitsAux, if_neg hm10, if_pos hn10] at heq
        have hlen := congrArg List.length heq
        simp only [List.length_append, List.length_singleton] at hlen
        have hnil : natDigitsAux f1 (m / 10) = [] := List.length_eq_zero.mp (by omega)
        exact natDigitsAux_ne_nil f1 (m / 10) (by omega) hnil
      · simp only [natDigitsAux, if_neg hm10, if_neg hn10] at heq
        obtain ⟨hpre, hlast⟩ := List.append_inj' heq rfl
        have hdiv : m / 10 = n / 10 :=
          ih f2 (m / 10) (n / 10) (by omega) (by omega) hpre
        have hmod : m % 10 = n % 10 := by
          apply digitChar_inj (Nat.mod_lt _ (by omega)) (Nat.mod_lt _ (by omega))
          exact (List.cons.injEq _ _ _ _).mp hlast |>.1
        omega

theorem natToString_inj {m n : Nat} (h : natToString m = natToString n) : m = n := by
  have hd : natDigits m = natDigits n := by
    have := congrArg String.data h
    simpa [natToString] using this
  exact natDigitsAux_inj (m + 1) (n + 1) m n (Nat.lt_succ_self m) (Nat.lt_succ_self n)
    (by simpa [natDigits] using hd)

/-! ### C2: ids collide when two creates share a timestamp -/

/-- C2 counterexample: two `createRating` calls in the same millisecond
(`Date.now() = 5` for both) return records with the *same* id `"5"`, and the
second `Map.set` overwrites the first entry, so the registry holds one entry
after two creates instead of one entry per create. -/
theorem c2_counterexample :
    ((createRating emptyStore 5 "U1" "C1").2.id =
      (createRating (createRating emptyStore 5 "U1" "C1").1 5 "U2" "C2").2.id) ∧
    ((createRating (createRating emptyStore 5 "U1" "C1").1 5 "U2" "C2").1.ratings.length
      = 1) := by
  decide

/-- C2 (amended): `createRating` derives the id from `Date.now()`, so ids are
pairwise distinct only when the creating calls observe pairwise distinct
timestamps; under that proviso two creates return distinct ids, and a create
whose timestamp-derived id is not yet in the registry grows the registry by
exactly one entry. -/
theorem c2_distinct_times_distinct_ids (sa sb s : RatingStore) (t1 t2 now : Nat)
    (u1 c1 u2 c2 u c : String) (hne : t1 ≠ t2)
    (hfresh : mapGet s.ratings (natToString now) = none) :
    (createRating sa t1 u1 c1).2.id ≠ (createRating sb t2 u2 c2).2.id ∧
    (createRating s now u c).1.ratings.length = s.ratings.length + 1 := by
  constructor
  · intro h
    exact hne (natToString_inj h)
  · exact length_mapSet_of_get_none _ _ _ hfresh

/-- Witness for the amended C2: creates at times 1 and 2 get distinct ids,
and the create at time 1 grows the empty registry to one entry. -/
theorem c2_witness :
    ((createRating emptyStore 1 "U1" "C1").2.id ≠
      (createRating emptyStore 2 "U2" "C2").2.id) ∧
    (createRating emptyStore 1 "U1" "C1").1.ratings.length =
      emptyStore.ratings.length + 1 :=
  c2_distinct_times_distinct_ids emptyStore emptyStore emptyStore 1 2 1
    "U1" "C1" "U2" "C2" "U1" "C1" (by decide) (by decide)

/-! ### C6: the sliding-window limiter -/

/-- C6: `checkRateLimit` reports limited exactly when at least 5 recorded
timestamps lie strictly inside the 15-minute window ending at `now`
(`t + windowMs > now`), and as a side effect stores back, for that requester,
exactly the timestamps still inside the window — older entries are pruned
with no explicit reset, so once the earliest timestamp ages out the count
drops and the verdict returns to false.  The ratings map is untouched. -/
theorem c6_rate_limit_window (s : RatingStore) (userId : String) (now : Nat) :
    ((checkRateLimit s userId now).2 = true ↔
      5 ≤ ((mapGet s.rateLimit userId).getD []).countP
            (fun t => decide (now < t + windowMs))) ∧
    mapGet (checkRateLimit s userId now).1.rateLimit userId =
      some (((mapGet s.rateLimit userId).getD []).filter
              (fun t => decide (now < t + windowMs))) ∧
    (checkRateLimit s userId now).1.ratings = s.ratings := by
  have hpred : ∀ t : Nat,
      (decide (now - t < windowMs) : Bool) = decide (now < t + windowMs) :=
    fun t => decide_eq_decide.mpr (by unfold windowMs; omega)
  have hfilter : ((mapGet s.rateLimit userId).getD []).filter
        (fun t => decide (now - t < windowMs)) =
      ((mapGet s.rateLimit userId).getD []).filter
        (fun t => decide (now < t + windowMs)) :=
    List.filter_congr (fun a _ => hpred a)
  refine ⟨?_, ?_, rfl⟩
  · simp only [checkRateLimit, decide_eq_true_eq, hfilter,
      List.countP_eq_length_filter]
  · simp only [checkRateLimit, mapGet_mapSet_self, hfilter]

/-! ### C10: the affordance reference round-trips -/

theorem digitChar_isDigit {d : Nat} (h : d < 10) : (digitChar d).isDigit = true := by
  interval_cases d <;> decide

theorem natDigitsAux_isDigit (fuel : Nat) :
    ∀ n ch, ch ∈ natDigitsAux fuel n → ch.isDigit = true := by
  induction fuel with
  | zero => intro n ch hc; simp [natDigitsAux] at hc
  | succ f ih =>
    intro n ch hc
    by_cases h10 : n < 10
    · simp only [natDigitsAux, if_pos h10, List.mem_singleton] at hc
      subst hc
      exact digitChar_isDigit h10
    · simp only [natDigitsAux, if_neg h10, List.mem_append,
        List.mem_singleton] at hc
      rcases hc with hc | hc
      · exact ih _ _ hc
      · subst hc
        exact digitChar_isDigit (Nat.mod_lt _ (by omega))

theorem underscore_not_mem_natDigits (n : Nat) : '_' ∉ natDigits n := by
  intro h
  exact absurd (natDigitsAux_isDigit (n + 1) n '_' h) (by decide)

theorem splitOnChar_of_not_mem (sep : Char) (l : List Char) (h : sep ∉ l) :
    splitOnChar sep l = [l] := by
  induction l with
  | nil => rfl
  | cons c t ih =>
    have hc : ¬c = sep := fun e => h (by simp [e])
    have ht : sep ∉ t := fun m => h (List.mem_cons_of_mem _ m)
    simp [splitOnChar, hc, ih ht]

theorem splitOnChar_append (sep : Char) (l rest : List Char) (h : sep ∉ l) :
    splitOnChar sep (l ++ sep :: rest) = l :: splitOnChar sep rest := by
  induction l with
  | nil => simp [splitOnChar]
  | cons c t ih =>
    have hc : ¬c = sep := fun e => h (by simp [e])
    have ht : sep ∉ t := fun m => h (List.mem_cons_of_mem _ m)
    simp [splitOnChar, hc, ih ht]

/-- C10: the interactive message's `block_id` is `rating_` followed by the
created request's id; splitting on `'_'` and taking the second component
recovers exactly that id, because every generated id is a nonempty string of
decimal digits and so contains no underscore. -/
theorem c10_block_id_round_trip (s : RatingStore) (now : Nat) (u c : String) :
    (jsSplit (blockId (createRating s now u c).2) '_')[1]? =
      some (createRating s now u c).2.id ∧
    ∀ ch ∈ (createRating s now u c).2.id.data, ch.isDigit = true := by
  constructor
  · have hid : (createRating s now u c).2.id = String.mk (natDigits now) := rfl
    have hdata : (blockId (createRating s now u c).2).data =
        ['r', 'a', 't', 'i', 'n', 'g'] ++ '_' :: natDigits now := by
      show ("rating_" ++ String.mk (natDigits now)).data = _
      rw [String.data_append]
      rfl
    unfold jsSplit
    rw [hdata,
      splitOnChar_append '_' ['r', 'a', 't', 'i', 'n', 'g'] (natDigits now)
        (by decide),
      splitOnChar_of_not_mem '_' (natDigits now) (underscore_not_mem_natDigits now)]
    simp [hid]
  · intro ch hch
    exact natDigitsAux_isDigit (now + 1) now ch hch

/-- Witness for C10 at the concrete request created at time 100. -/
theorem c10_witness :
    (jsSplit (blockId (createRating emptyStore 100 "U1" "C1").2) '_')[1]? =
      some (createRating emptyStore 100 "U1" "C1").2.id :=
  (c10_block_id_round_trip emptyStore 100 "U1" "C1").1
